import Mathlib

/-!
Shallow embedding of the "Mercado Fácil" retail-management application
(src/types.ts and the state-mutating handlers of src/App.tsx).

Modelling conventions:
* JavaScript numbers are modelled as exact rationals (ℚ).
* `Number(x.toFixed(2))` on exact rational values is modelled by `round2`
  (round to the nearest multiple of 1/100, ties towards +∞, as specified
  for ECMAScript `toFixed`).
* Each React event handler is modelled as a pure function on `AppState`
  returning the state the handler COMMITS. `updateState`
  (src/App.tsx:2177-2181) merges its partial state into the `state` value
  captured at render time, which does not change while an event handler
  runs. So when a handler calls `updateState` twice — a business update
  followed by `logSecurityAction`, whose own `updateState`
  (src/App.tsx:2198) also reads the stale `state` — both merges start from
  the same pre-handler state and the second `setState`/`saveAppState`
  replaces the first: the committed state is the pre-handler state plus
  only the security log, and the business update is lost. Handlers with a
  single `updateState` call commit it normally. The replaced first write
  of the receive and adjustment flows is modelled separately
  (`receiveUpdate`, `adjustmentUpdate`) as the update the code builds and
  then discards.
* `Date.now().toString()` and `new Date().toISOString()` results are passed
  in as explicit string parameters.
* TypeScript string-literal unions become inductive types; the purchase
  order status `'open'` is rendered as `OrderStatus.opened` because `open`
  is reserved in Lean, and the stock-movement types `'in'`/`'out'` as
  `MovementType.stockIn`/`MovementType.stockOut`.
-/

namespace Mercado

inductive UserRole
  | admin
  | employee
  | cashier
  deriving DecidableEq, Repr

structure User where
  id : String
  name : String
  role : UserRole
  deriving DecidableEq, Repr

structure Product where
  id : String
  name : String
  category : String
  sku : String
  barcode : String
  qty : ℚ
  minQty : ℚ
  costPrice : ℚ
  sellPrice : ℚ
  unit : String
  supplierId : String
  imageUrl : Option String
  deriving DecidableEq, Repr

structure Supplier where
  id : String
  name : String
  cnpj : String
  contactName : String
  representativeName : Option String
  phone : String
  email : String
  address : String
  deriving DecidableEq, Repr

inductive MovementType
  | stockIn
  | stockOut
  | adjustment
  | sale
  deriving DecidableEq, Repr

structure StockMovement where
  id : String
  productId : String
  type : MovementType
  qty : ℚ
  date : String
  userId : String
  userName : String
  observation : Option String
  deriving DecidableEq, Repr

inductive OrderStatus
  | opened
  | sent
  | received
  deriving DecidableEq, Repr

structure OrderItem where
  productId : String
  qty : ℚ
  cost : ℚ
  deriving DecidableEq, Repr

structure PurchaseOrder where
  id : String
  supplierId : String
  status : OrderStatus
  dateCreated : String
  items : List OrderItem
  deriving DecidableEq, Repr

structure SaleItem where
  productId : String
  productName : String
  qty : ℚ
  unitPrice : ℚ
  total : ℚ
  deriving DecidableEq, Repr

inductive PaymentMethod
  | cash
  | credit
  | debit
  | pix
  deriving DecidableEq, Repr

structure Sale where
  id : String
  items : List SaleItem
  totalValue : ℚ
  paymentMethod : PaymentMethod
  date : String
  userId : String
  userName : String
  deriving DecidableEq, Repr

inductive SecurityAction
  | delete_product
  | cancel_sale
  | remove_item_pos
  | manual_adjustment
  | change_price
  | user_management
  deriving DecidableEq, Repr

structure SecurityLog where
  id : String
  action : SecurityAction
  description : String
  userId : String
  userName : String
  authorizedBy : Option String
  timestamp : String
  deriving DecidableEq, Repr

structure AppState where
  users : List User
  products : List Product
  suppliers : List Supplier
  movements : List StockMovement
  orders : List PurchaseOrder
  sales : List Sale
  securityLogs : List SecurityLog
  currentUser : Option User
  adminPin : String
  deriving DecidableEq, Repr

/-- `Number(x.toFixed(2))` on an exact rational value: round to the nearest
hundredth, ties towards the larger candidate, as ECMAScript specifies for
`toFixed`. -/
def round2 (q : ℚ) : ℚ := (Int.floor (q * 100 + 1 / 2) : ℚ) / 100

/-- App.logSecurityAction (src/App.tsx:2188-2199): appends one SecurityLog
entry built from the acting user; `id` and `timestamp` come from the clock
(`nowId`, `nowTs`). -/
def logSecurityAction (s : AppState) (action : SecurityAction) (description : String)
    (authorizedBy : Option String) (nowId nowTs : String) : AppState :=
  { s with securityLogs := s.securityLogs ++
      [{ id := nowId
         action := action
         description := description
         userId := (s.currentUser.map User.id).getD "system"
         userName := (s.currentUser.map User.name).getD "System"
         authorizedBy := authorizedBy
         timestamp := nowTs }] }

/-- The fields submitted through the product form modal of the Products view
(src/App.tsx:504-586). `qty` is only read for new products. -/
structure ProductForm where
  name : String
  category : String
  sku : String
  barcode : String
  qty : ℚ
  minQty : ℚ
  costPrice : ℚ
  sellPrice : ℚ
  unit : String
  supplierId : String
  imageUrl : Option String
  deriving DecidableEq, Repr

/-- The `product` object built inside Products.handleSave
(src/App.tsx:304-317): id and qty are kept from the edited product when
editing, otherwise taken from the clock (`nowId`) and the form. -/
def productOfForm (editing : Option Product) (form : ProductForm) (nowId : String) : Product :=
  { id := (editing.map Product.id).getD nowId
    name := form.name
    category := form.category
    sku := form.sku
    barcode := form.barcode
    qty := (editing.map Product.qty).getD form.qty
    minQty := form.minQty
    costPrice := form.costPrice
    sellPrice := form.sellPrice
    unit := form.unit
    supplierId := form.supplierId
    imageUrl := form.imageUrl }

/-- Products.handleSave (src/App.tsx:297-347). Editing replaces the product
in place; creating appends it and, when the initial qty is positive, also
appends one `in` movement with observation "Estoque inicial". The source
performs no validation of any field. -/
def handleSaveProduct (s : AppState) (editing : Option Product) (form : ProductForm)
    (nowId mvId nowDate : String) : AppState :=
  let product := productOfForm editing form nowId
  match editing with
  | some ep =>
      { s with products := s.products.map (fun p => if p.id == ep.id then product else p) }
  | none =>
      let updatedProducts := s.products ++ [product]
      if 0 < product.qty then
        { s with
          products := updatedProducts
          movements := s.movements ++
            [{ id := mvId
               productId := product.id
               type := MovementType.stockIn
               qty := product.qty
               date := nowDate
               userId := (s.currentUser.map User.id).getD "sys"
               userName := (s.currentUser.map User.name).getD "Sistema"
               observation := some "Estoque inicial" }] }
      else
        { s with products := updatedProducts }

/-- The barcode the specification says a blank-barcode creation should
receive: "789" followed by the last 10 digits of the creation timestamp.
Modelled from the spec for comparison with the source behaviour. -/
def specBarcode (timestamp : String) : String :=
  "789" ++ timestamp.drop (timestamp.length - 10)

/-- Products.confirmDelete (src/App.tsx:354-362). The source calls
`updateState` with the filtered product list (line 357) and then
`logSecurityAction` (line 358); the log's `updateState` (line 2198) merges
the stale pre-handler state, and its `setState`/`saveAppState` land last,
so the committed state keeps the product list unchanged and gains only the
`delete_product` log entry — the filtered list `state.products.filter
(p => p.id !== pid)` is built and then replaced. -/
def confirmDeleteProduct (s : AppState) (pendingDeleteId : Option String)
    (nowId nowTs : String) : AppState :=
  match pendingDeleteId with
  | none => s
  | some pid =>
      let name := ((s.products.find? (fun p => p.id == pid)).map Product.name).getD "undefined"
      logSecurityAction s SecurityAction.delete_product ("Produto excluído: " ++ name)
        none nowId nowTs

/-- PinModal.handleSubmit (src/App.tsx:92-104): the pending action runs only
when the entered PIN equals `adminPin`; otherwise the state is untouched. -/
def pinGate (s : AppState) (pin : String) (action : AppState → AppState) : AppState :=
  if pin == s.adminPin then action s else s

/-- The local view state of the Products screen that drives the PIN modal. -/
structure ProductsView where
  pinModalOpen : Bool
  pendingDeleteId : Option String
  deriving DecidableEq, Repr

/-- Products.initiateDelete (src/App.tsx:349-352): records the pending id and
opens the PIN modal. It does this for every user, with no role check. -/
def initiateDelete (v : ProductsView) (id : String) : ProductsView :=
  { v with pendingDeleteId := some id, pinModalOpen := true }

/-- The complete PIN-gated product-deletion flow: PinModal.handleSubmit with
Products.confirmDelete as the pending action. -/
def pinSubmitDeleteProduct (s : AppState) (pending : Option String) (pin : String)
    (nowId nowTs : String) : AppState :=
  pinGate s pin (fun st => confirmDeleteProduct st pending nowId nowTs)

/-- UsersManagement.handleDelete (src/App.tsx:1472-1480): refuses outright
when at most one user exists. Otherwise the source writes the filtered user
list (line 1477) and then logs (line 1478); the log's stale-state
`updateState` replaces the filter write, so the committed state keeps the
user list unchanged and gains only the `user_management` entry — no user is
ever removed from the committed state. -/
def handleDeleteUser (s : AppState) (id : String) (nowId nowTs : String) : AppState :=
  if s.users.length ≤ 1 then s
  else
    logSecurityAction s SecurityAction.user_management ("Excluiu usuário ID: " ++ id)
      none nowId nowTs

/-- Suppliers.confirmDelete (src/App.tsx:1591-1606): refuses (no state
change) when any product still references the supplier. Otherwise the
source writes the filtered supplier list (line 1601) and then logs (line
1602); the log's stale-state `updateState` replaces the filter write, so
the committed state keeps the supplier list unchanged and gains only the
log entry (whose kind is `user_management` in this flow). -/
def confirmDeleteSupplier (s : AppState) (pending : Option String)
    (nowId nowTs : String) : AppState :=
  match pending with
  | none => s
  | some pid =>
      let name := ((s.suppliers.find? (fun sup => sup.id == pid)).map Supplier.name).getD
        "undefined"
      if s.products.any (fun p => p.supplierId == pid) then s
      else
        logSecurityAction s SecurityAction.user_management ("Fornecedor excluído: " ++ name)
          none nowId nowTs

/-- The payload of the first `updateState` call in
StockControl.handleAdjustment (src/App.tsx:1292-1308): the product list
with the new quantity and the prepended movement. This write is replaced
by the security-log write that follows (line 1310) and never reaches the
committed state; it is kept here as the update the code builds and loses. -/
def adjustmentUpdate (s : AppState) (productId : String) (type : MovementType) (qty : ℚ)
    (obs : String) (nowId nowDate : String) : AppState :=
  match s.products.find? (fun p => p.id == productId) with
  | none => s
  | some product =>
      let newQty := if type == MovementType.stockIn then product.qty + qty
        else product.qty - qty
      { s with
        products := s.products.map (fun p =>
          if p.id == productId then { p with qty := newQty } else p)
        movements :=
          ({ id := nowId
             productId := productId
             type := type
             qty := qty
             date := nowDate
             userId := (s.currentUser.map User.id).getD "sys"
             userName := (s.currentUser.map User.name).getD "User"
             observation := some obs } : StockMovement) :: s.movements }

/-- StockControl.handleAdjustment (src/App.tsx:1282-1312), committed
behaviour. `in` would add the quantity and every other type (including
`adjustment`) subtract it; a negative result aborts with no state change.
On the success path the source writes `adjustmentUpdate` (line 1305) and
then calls `logSecurityAction` (line 1310), whose stale-state
`updateState` replaces that write — so the committed state gains only one
`manual_adjustment` SecurityLog entry and the product list and movements
are unchanged. -/
def handleAdjustment (s : AppState) (productId : String) (type : MovementType) (qty : ℚ)
    (obs : String) (nowId nowDate nowTs : String) : AppState :=
  match s.products.find? (fun p => p.id == productId) with
  | none => s
  | some product =>
      let newQty := if type == MovementType.stockIn then product.qty + qty
        else product.qty - qty
      if newQty < 0 then s
      else
        logSecurityAction s SecurityAction.manual_adjustment
          ("Ajuste manual: " ++ (if type == MovementType.stockIn then "+" else "-") ++
            toString qty ++ " em " ++ product.name)
          none nowId nowTs

/-- Replace the first product whose id matches, as the source does through
`findIndex` followed by an index assignment (src/App.tsx:658-671). -/
def updateFirst (pid : String) (f : Product → Product) : List Product → List Product
  | [] => []
  | p :: ps => if p.id == pid then f p :: ps else p :: updateFirst pid f ps

/-- One line item of the receive loop in Purchases.handleUpdateStatus
(src/App.tsx:657-684): weighted-average cost rounded through
`Number(x.toFixed(2))`, qty incremented, one `in` movement appended with the
order id in its observation. Lines whose product is absent are skipped. -/
def receiveStep (orderId userId userName nowId nowDate : String)
    (acc : List Product × List StockMovement) (item : OrderItem) :
    List Product × List StockMovement :=
  match acc.1.find? (fun p => p.id == item.productId) with
  | none => acc
  | some product =>
      let currentTotalValue := product.qty * product.costPrice
      let newItemsValue := item.qty * item.cost
      let newTotalQty := product.qty + item.qty
      let newAvgCost := (currentTotalValue + newItemsValue) / newTotalQty
      (updateFirst item.productId
        (fun p => { p with qty := newTotalQty, costPrice := round2 newAvgCost }) acc.1,
       acc.2 ++
        [{ id := nowId ++ item.productId
           productId := item.productId
           type := MovementType.stockIn
           qty := item.qty
           date := nowDate
           userId := userId
           userName := userName
           observation := some ("Pedido de Compra #" ++ orderId) }])

/-- The payload of the first `updateState` call of the receive branch of
Purchases.handleUpdateStatus (src/App.tsx:652-691): status flipped to
`received`, `receiveStep` folded over the line items. This write (line 687)
is replaced by the security-log write (line 693) and never reaches the
committed state; it is kept here as the update the code builds and loses. -/
def receiveUpdate (s : AppState) (orderId : String) (order : PurchaseOrder)
    (nowId nowDate : String) : AppState :=
  let acc := order.items.foldl
    (receiveStep order.id ((s.currentUser.map User.id).getD "sys")
      ((s.currentUser.map User.name).getD "Sistema") nowId nowDate)
    (s.products, s.movements)
  { s with
    orders := s.orders.map (fun o =>
      if o.id == orderId then { o with status := OrderStatus.received } else o)
    products := acc.1
    movements := acc.2 }

/-- Purchases.handleUpdateStatus (src/App.tsx:648-700), committed
behaviour. Moving an order that is not yet `received` to `received` builds
`receiveUpdate` and writes it (line 687), then calls `logSecurityAction`
(line 693), whose stale-state `updateState` replaces that write — so the
committed state gains only one `manual_adjustment` log entry and the
orders, products and movements are unchanged (the order does not even
become `received`). Any other transition is a single `updateState` that
commits the status relabel. -/
def handleUpdateStatus (s : AppState) (orderId : String) (newStatus : OrderStatus)
    (nowId nowDate nowTs : String) : AppState :=
  match s.orders.find? (fun o => o.id == orderId) with
  | none => s
  | some order =>
      if newStatus == OrderStatus.received && !(order.status == OrderStatus.received) then
        logSecurityAction s SecurityAction.manual_adjustment
          ("Recebimento de Pedido #" ++ orderId) none nowId nowTs
      else
        { s with orders := s.orders.map (fun o =>
            if o.id == orderId then { o with status := newStatus } else o) }

/-- POS cart total (src/App.tsx:1038): reduce of the line totals. -/
def cartTotal (cart : List SaleItem) : ℚ := cart.foldl (fun acc it => acc + it.total) 0

/-- POS.addToCart (src/App.tsx:945-978): rejects a product with no stock or a
request beyond the on-hand quantity, otherwise increments the existing line
or appends a new one priced at the current sell price. -/
def addToCart (cart : List SaleItem) (product : Product) (qty : ℚ) : List SaleItem :=
  if product.qty ≤ 0 then cart
  else
    let currentQtyInCart :=
      ((cart.find? (fun i => i.productId == product.id)).map SaleItem.qty).getD 0
    if product.qty < currentQtyInCart + qty then cart
    else if (cart.find? (fun i => i.productId == product.id)).isSome then
      cart.map (fun i =>
        if i.productId == product.id then
          { i with qty := i.qty + qty, total := (i.qty + qty) * i.unitPrice }
        else i)
    else
      cart ++ [{ productId := product.id
                 productName := product.name
                 qty := qty
                 unitPrice := product.sellPrice
                 total := product.sellPrice * qty }]

/-- POS.finalizeSale (src/App.tsx:1040-1082): one new Sale, one `sale`
movement per cart line, each sold product decremented by its line quantity,
all in a single state update; the second component is the cleared cart. -/
def finalizeSale (s : AppState) (cart : List SaleItem) (method : PaymentMethod)
    (nowId nowDate : String) : AppState × List SaleItem :=
  let sale : Sale :=
    { id := nowId
      items := cart
      totalValue := cartTotal cart
      paymentMethod := method
      date := nowDate
      userId := (s.currentUser.map User.id).getD "sys"
      userName := (s.currentUser.map User.name).getD "Sistema" }
  let newMovements := cart.map (fun it =>
    ({ id := nowId ++ it.productId
       productId := it.productId
       type := MovementType.sale
       qty := it.qty
       date := nowDate
       userId := (s.currentUser.map User.id).getD "sys"
       userName := (s.currentUser.map User.name).getD "Sistema"
       observation := none } : StockMovement))
  let updatedProducts := s.products.map (fun p =>
    match cart.find? (fun i => i.productId == p.id) with
    | some soldItem => { p with qty := p.qty - soldItem.qty }
    | none => p)
  ({ s with
      sales := s.sales ++ [sale]
      movements := s.movements ++ newMovements
      products := updatedProducts },
   ([] : List SaleItem))

/-! Concrete sample data used by the counterexamples and witnesses below. -/

/-- A state with every collection empty and the default PIN `"1234"`. -/
def emptyState : AppState :=
  { users := []
    products := []
    suppliers := []
    movements := []
    orders := []
    sales := []
    securityLogs := []
    currentUser := none
    adminPin := "1234" }

/-- A concrete catalog product (supplier `"s1"`). -/
def mkProduct (id : String) (q c sp : ℚ) : Product :=
  { id := id
    name := "Arroz Branco"
    category := "Mercearia"
    sku := "SKU-" ++ id
    barcode := "b-" ++ id
    qty := q
    minQty := 1
    costPrice := c
    sellPrice := sp
    unit := "UN"
    supplierId := "s1"
    imageUrl := none }

/-- A product form whose sell price (1) is below its cost price (2). -/
def badMarginForm : ProductForm :=
  { name := "Feijão"
    category := "Mercearia"
    sku := "SKU-9"
    barcode := "b-9"
    qty := 0
    minQty := 0
    costPrice := 2
    sellPrice := 1
    unit := "UN"
    supplierId := "s1"
    imageUrl := none }

/-- A product form submitted with a blank barcode. -/
def blankBarcodeForm : ProductForm :=
  { name := "Leite"
    category := "Frios e Laticínios"
    sku := "SKU-2"
    barcode := ""
    qty := 0
    minQty := 0
    costPrice := 3
    sellPrice := 5
    unit := "L"
    supplierId := "s1"
    imageUrl := none }

/-- The product targeted by the manual-adjustment samples: 10 on hand. -/
def adjProduct : Product := mkProduct "p1" 10 4 6

/-- A state holding only `adjProduct`. -/
def adjState : AppState := { emptyState with products := [adjProduct] }

/-- The seed admin user. -/
def u1 : User := { id := "1", name := "Gerente Carlos", role := UserRole.admin }

/-- The seed employee user. -/
def u2 : User := { id := "2", name := "Func. Ana", role := UserRole.employee }

/-- Two users, the admin being the active one. -/
def usersState : AppState := { emptyState with users := [u1, u2], currentUser := some u1 }

/-- A concrete supplier. -/
def sup1 : Supplier :=
  { id := "s1"
    name := "Distribuidora Central"
    cnpj := "00.000.000/0001-00"
    contactName := "Ana"
    representativeName := none
    phone := "11 99999-0000"
    email := "contato@central.com"
    address := "Rua A, 1" }

/-- Supplier `"s1"` still referenced by one product. -/
def supStateUsed : AppState :=
  { emptyState with suppliers := [sup1], products := [mkProduct "p1" 5 2 4] }

/-- Supplier `"s1"` referenced by no product. -/
def supStateFree : AppState := { emptyState with suppliers := [sup1] }

/-- A state whose active user is an admin, holding one product. -/
def adminState : AppState :=
  { emptyState with users := [u1], currentUser := some u1, products := [mkProduct "p1" 5 2 4] }

/-- POS sample: 5 on hand, sold at 10. -/
def posProduct : Product := mkProduct "pp" 5 6 10

/-- A state holding only `posProduct`. -/
def posState : AppState := { emptyState with products := [posProduct] }

/-- A cart holding 3 units of `posProduct` at unit price 10. -/
def posCart : List SaleItem :=
  [{ productId := "pp", productName := "Arroz Branco", qty := 3, unitPrice := 10, total := 30 }]

/-- Receiving sample for the rounding counterexample: 1 on hand at cost 1. -/
def roundProduct : Product := mkProduct "p" 1 1 9

/-- First purchase order: 2 units at cost 2 (exact average 5/3). -/
def roundOrder1 : PurchaseOrder :=
  { id := "o1"
    supplierId := "s1"
    status := OrderStatus.opened
    dateCreated := "d0"
    items := [{ productId := "p", qty := 2, cost := 2 }] }

/-- Second purchase order: 3 units at cost 1, received after `roundOrder1`. -/
def roundOrder2 : PurchaseOrder :=
  { id := "o2"
    supplierId := "s1"
    status := OrderStatus.opened
    dateCreated := "d0"
    items := [{ productId := "p", qty := 3, cost := 1 }] }

/-- State for the two successive receipts of the rounding claims. -/
def roundState : AppState :=
  { emptyState with products := [roundProduct], orders := [roundOrder1, roundOrder2] }

/-- Receiving sample for the division-by-zero base case: 0 on hand. -/
def rcvProduct : Product := mkProduct "p" 0 10 20

/-- A sent order of 20 units at cost 5 against `rcvProduct`. -/
def rcvOrder : PurchaseOrder :=
  { id := "o1"
    supplierId := "s1"
    status := OrderStatus.sent
    dateCreated := "d0"
    items := [{ productId := "p", qty := 20, cost := 5 }] }

/-- State for the receive witness. -/
def rcvState : AppState := { emptyState with products := [rcvProduct], orders := [rcvOrder] }

/-- The same order already received. -/
def rcvOrderDone : PurchaseOrder := { rcvOrder with status := OrderStatus.received }

/-- State in which the order has already been received. -/
def rcvStateDone : AppState :=
  { emptyState with products := [rcvProduct], orders := [rcvOrderDone] }

/-! Helper lemmas shared by several claim proofs. -/

lemma map_id_of_eq {α : Type} (f : α → α) (l : List α) (h : ∀ a ∈ l, f a = a) :
    l.map f = l := by
  induction l with
  | nil => rfl
  | cons a t ih =>
      simp only [List.map_cons, List.cons.injEq]
      exact ⟨h a (List.mem_cons_self a t), ih (fun b hb => h b (List.mem_cons_of_mem a hb))⟩

lemma cartTotal_go (cart : List SaleItem) :
    ∀ a : ℚ, cart.foldl (fun acc it => acc + it.total) a = a + (cart.map SaleItem.total).sum := by
  induction cart with
  | nil => intro a; simp
  | cons it t ih =>
      intro a
      simp only [List.foldl_cons, List.map_cons, List.sum_cons, ih]
      ring

lemma cartTotal_eq_sum (cart : List SaleItem)
    (h : ∀ it ∈ cart, it.total = it.qty * it.unitPrice) :
    cartTotal cart = (cart.map (fun it => it.qty * it.unitPrice)).sum := by
  rw [cartTotal, cartTotal_go cart 0, zero_add]
  congr 1
  exact List.map_congr_left h

lemma order_set_received_self (o : PurchaseOrder) (h : o.status = OrderStatus.received) :
    { o with status := OrderStatus.received } = o := by
  cases o with
  | mk i sid st dc its =>
      cases h
      rfl

lemma updateFirst_find? (pid : String) (f : Product → Product)
    (hf : ∀ p, (f p).id = p.id) :
    ∀ (l : List Product) (product : Product),
      l.find? (fun p => p.id == pid) = some product →
      (updateFirst pid f l).find? (fun p => p.id == pid) = some (f product) := by
  intro l
  induction l with
  | nil => intro product h; simp [List.find?] at h
  | cons a t ih =>
      intro product h
      cases hb : (a.id == pid) with
      | false =>
          simp only [List.find?, hb] at h
          simpa [updateFirst, hb, List.find?] using ih product h
      | true =>
          simp only [List.find?, hb] at h
          cases h
          simp [updateFirst, hb, List.find?, hf a]

lemma updateFirst_map_id (pid : String) (f : Product → Product) (l : List Product)
    (hf : ∀ p, (f p).id = p.id) :
    (updateFirst pid f l).map Product.id = l.map Product.id := by
  induction l with
  | nil => rfl
  | cons a t ih =>
      cases hb : (a.id == pid) with
      | false => simp [updateFirst, hb, ih]
      | true => simp [updateFirst, hb, hf]

lemma find?_id_isSome_iff (x : String) (l : List Product) :
    ((l.find? (fun p => p.id == x)).isSome) ↔ x ∈ l.map Product.id := by
  rw [List.find?_isSome]
  constructor
  · rintro ⟨p, hp, he⟩
    exact List.mem_map.mpr ⟨p, hp, by simpa using he⟩
  · intro hx
    obtain ⟨p, hp, he⟩ := List.mem_map.mp hx
    exact ⟨p, hp, by simp [he]⟩

lemma receiveStep_spec (oid uid un nid nd : String) (prods : List Product)
    (movs : List StockMovement) (item : OrderItem) (product : Product)
    (h : prods.find? (fun p => p.id == item.productId) = some product) :
    receiveStep oid uid un nid nd (prods, movs) item =
      (updateFirst item.productId
        (fun p => { p with
          qty := product.qty + item.qty
          costPrice := round2 ((product.qty * product.costPrice + item.qty * item.cost)
            / (product.qty + item.qty)) }) prods,
       movs ++
        [{ id := nid ++ item.productId
           productId := item.productId
           type := MovementType.stockIn
           qty := item.qty
           date := nd
           userId := uid
           userName := un
           observation := some ("Pedido de Compra #" ++ oid) }]) := by
  unfold receiveStep
  rw [h]

lemma receiveItems_length (oid uid un nid nd : String) :
    ∀ (items : List OrderItem) (prods : List Product) (movs : List StockMovement),
      (∀ item ∈ items, (prods.find? (fun p => p.id == item.productId)).isSome) →
      ((items.foldl (receiveStep oid uid un nid nd) (prods, movs)).2).length
        = movs.length + items.length := by
  intro items
  induction items with
  | nil => intro prods movs _; simp
  | cons it t ih =>
      intro prods movs hall
      obtain ⟨product, hp⟩ := Option.isSome_iff_exists.mp (hall it (List.mem_cons_self it t))
      rw [List.foldl_cons, receiveStep_spec oid uid un nid nd prods movs it product hp]
      have hrest : ∀ item ∈ t,
          (((updateFirst it.productId
              (fun p => { p with
                qty := product.qty + it.qty
                costPrice := round2 ((product.qty * product.costPrice + it.qty * it.cost)
                  / (product.qty + it.qty)) }) prods).find?
            (fun p => p.id == item.productId)).isSome) := by
        intro item hm
        rw [find?_id_isSome_iff, updateFirst_map_id, ← find?_id_isSome_iff]
        · exact hall item (List.mem_cons_of_mem it hm)
        · intro p
          rfl
      rw [ih _ _ hrest]
      simp [List.length_append]
      omega

/-- POS.addToCart maintains the cart invariant assumed by the
finalize-sale claim: every line's total equals qty times unitPrice. -/
lemma addToCart_total_invariant (cart : List SaleItem) (product : Product) (q : ℚ)
    (h : ∀ it ∈ cart, it.total = it.qty * it.unitPrice) :
    ∀ it ∈ addToCart cart product q, it.total = it.qty * it.unitPrice := by
  intro it hit
  unfold addToCart at hit
  by_cases h0 : product.qty ≤ 0
  · rw [if_pos h0] at hit
    exact h it hit
  · rw [if_neg h0] at hit
    by_cases hover : product.qty
        < (((cart.find? (fun i => i.productId == product.id)).map SaleItem.qty).getD 0) + q
    · rw [if_pos hover] at hit
      exact h it hit
    · rw [if_neg hover] at hit
      by_cases hsome : ((cart.find? (fun i => i.productId == product.id)).isSome) = true
      · rw [if_pos hsome] at hit
        rcases List.mem_map.mp hit with ⟨j, hj, he⟩
        by_cases hid : (j.productId == product.id) = true
        · rw [← he, if_pos hid]
        · rw [← he, if_neg hid]
          exact h j hj
      · rw [if_neg hsome] at hit
        rcases List.mem_append.mp hit with hit2 | hit2
        · exact h it hit2
        · rw [List.mem_singleton] at hit2
          rw [hit2]
          dsimp only
          ring

lemma handleAdjustment_non_in_spec (s : AppState) (pid : String) (t : MovementType)
    (q : ℚ) (obs : String) (nowId nowDate nowTs : String) (product : Product)
    (ht : t ≠ MovementType.stockIn)
    (hfind : s.products.find? (fun p => p.id == pid) = some product) :
    (product.qty < q → handleAdjustment s pid t q obs nowId nowDate nowTs = s)
    ∧ (q ≤ product.qty →
        handleAdjustment s pid t q obs nowId nowDate nowTs
          = logSecurityAction s SecurityAction.manual_adjustment
              ("Ajuste manual: " ++ (if t == MovementType.stockIn then "+" else "-") ++
                toString q ++ " em " ++ product.name)
              none nowId nowTs) := by
  have hb : (t == MovementType.stockIn) = false := by
    cases t <;> simp_all
  constructor
  · intro hlt
    unfold handleAdjustment
    rw [hfind]
    simp only [hb, Bool.false_eq_true, if_false]
    rw [if_pos (sub_neg.mpr hlt)]
  · intro hle
    unfold handleAdjustment
    rw [hfind]
    simp only [hb, Bool.false_eq_true, if_false]
    rw [if_neg (not_lt.mpr (sub_nonneg.mpr hle))]

lemma adjustmentUpdate_non_in (s : AppState) (pid : String) (t : MovementType)
    (q : ℚ) (obs : String) (nowId nowDate : String) (product : Product)
    (ht : t ≠ MovementType.stockIn)
    (hfind : s.products.find? (fun p => p.id == pid) = some product) :
    (adjustmentUpdate s pid t q obs nowId nowDate).products
      = s.products.map
          (fun p => if p.id == pid then { p with qty := product.qty - q } else p) := by
  have hb : (t == MovementType.stockIn) = false := by
    cases t <;> simp_all
  unfold adjustmentUpdate
  rw [hfind]
  simp only [hb, Bool.false_eq_true, if_false]

/-! Claim theorems, counterexamples and witnesses. -/

/-- Claim C1, counterexample: submitting the catalog form with
`sellPrice = 1 ≤ costPrice = 2` is not rejected — the product is stored and
the product list changes, so the claimed validation does not exist. -/
theorem save_accepts_nonpositive_margin :
    (handleSaveProduct emptyState none badMarginForm "100" "101" "d").products
      = [productOfForm none badMarginForm "100"]
    ∧ (productOfForm none badMarginForm "100").sellPrice
        ≤ (productOfForm none badMarginForm "100").costPrice
    ∧ (handleSaveProduct emptyState none badMarginForm "100" "101" "d").products
        ≠ emptyState.products := by
  refine ⟨?_, ?_, ?_⟩
  · norm_num [handleSaveProduct, productOfForm, emptyState, badMarginForm]
  · norm_num [productOfForm, badMarginForm]
  · norm_num [handleSaveProduct, productOfForm, emptyState, badMarginForm]

/-- Claim C1, amended: Products.handleSave performs no price validation at
all — every submitted create is appended and every submitted edit replaces
the product in place, with the submitted cost and sell prices stored
verbatim (in particular a save with `sellPrice ≤ costPrice` is accepted). -/
theorem handleSaveProduct_no_price_validation (s : AppState) (form : ProductForm)
    (nowId mvId nowDate : String) :
    (handleSaveProduct s none form nowId mvId nowDate).products
        = s.products ++ [productOfForm none form nowId]
    ∧ (productOfForm none form nowId).costPrice = form.costPrice
    ∧ (productOfForm none form nowId).sellPrice = form.sellPrice
    ∧ ∀ ep : Product,
        (handleSaveProduct s (some ep) form nowId mvId nowDate).products
          = s.products.map
              (fun p => if p.id == ep.id then productOfForm (some ep) form nowId else p) := by
  refine ⟨?_, rfl, rfl, fun ep => rfl⟩
  unfold handleSaveProduct
  by_cases h : 0 < (productOfForm none form nowId).qty
  · simp [h]
  · simp [h]

/-- Claim C6, counterexample: creating a product with a blank barcode stores
the blank barcode unchanged; the spec-prescribed generated code
`"789" ++ last 10 digits of the timestamp` is a different string. -/
theorem blank_barcode_not_generated :
    (handleSaveProduct emptyState none blankBarcodeForm "1733990000000" "m" "d").products.map
        Product.barcode = [""]
    ∧ specBarcode "1733990000000" = "7893990000000"
    ∧ (("" : String) ≠ specBarcode "1733990000000") := by
  refine ⟨?_, by decide, by decide⟩
  norm_num [handleSaveProduct, productOfForm, emptyState, blankBarcodeForm]

/-- Claim C6, amended: the barcode is always stored exactly as submitted —
a blank submitted barcode stays blank (no auto-generation) and a non-blank
one is stored as given; every product present after a save either was
already in the catalog or carries the submitted barcode. -/
theorem barcode_stored_verbatim (s : AppState) (editing : Option Product)
    (form : ProductForm) (nowId mvId nowDate : String) :
    (productOfForm editing form nowId).barcode = form.barcode
    ∧ ∀ p ∈ (handleSaveProduct s editing form nowId mvId nowDate).products,
        p ∈ s.products ∨ p.barcode = form.barcode := by
  refine ⟨rfl, ?_⟩
  intro p hp
  cases editing with
  | none =>
      unfold handleSaveProduct at hp
      by_cases h : 0 < (productOfForm none form nowId).qty
      · simp only [h, if_true] at hp
        simp only [List.mem_append, List.mem_singleton] at hp
        rcases hp with hp | hp
        · exact Or.inl hp
        · exact Or.inr (by rw [hp]; rfl)
      · simp only [h, if_false] at hp
        simp only [List.mem_append, List.mem_singleton] at hp
        rcases hp with hp | hp
        · exact Or.inl hp
        · exact Or.inr (by rw [hp]; rfl)
  | some ep =>
      unfold handleSaveProduct at hp
      rcases List.mem_map.mp hp with ⟨q, hq, he⟩
      by_cases hid : (q.id == ep.id) = true
      · rw [← he, if_pos hid]
        exact Or.inr rfl
      · rw [← he, if_neg hid]
        exact Or.inl hq

/-- Claim C6, witness: the amended statement evaluated on the concrete
blank-barcode form — the stored product carries the submitted (blank)
barcode. -/
theorem barcode_stored_verbatim_witness :
    productOfForm none blankBarcodeForm "77" ∈ emptyState.products
      ∨ (productOfForm none blankBarcodeForm "77").barcode = blankBarcodeForm.barcode := by
  have h := barcode_stored_verbatim emptyState none blankBarcodeForm "77" "78" "d"
  exact h.2 (productOfForm none blankBarcodeForm "77")
    (by norm_num [handleSaveProduct, productOfForm, emptyState, blankBarcodeForm])

/-- Claim C2, counterexample: a manual `adjustment` of 3 against a product
with 10 on hand commits qty 10, not the submitted value 3 — only a
`manual_adjustment` SecurityLog entry lands, because the stock write is
replaced by the stale-state security-log write. -/
theorem adjustment_qty_unchanged_counterexample :
    (((handleAdjustment adjState "p1" MovementType.adjustment 3 "inventário" "n" "d"
        "t").products.find? (fun p => p.id == "p1")).map Product.qty) = some 10
    ∧ ((10 : ℚ) ≠ 3)
    ∧ (handleAdjustment adjState "p1" MovementType.adjustment 3 "inventário" "n" "d"
        "t").securityLogs.length = adjState.securityLogs.length + 1 := by
  have hne : (MovementType.adjustment == MovementType.stockIn) = false := by decide
  refine ⟨?_, by norm_num, ?_⟩
  · norm_num [handleAdjustment, adjState, adjProduct, mkProduct, emptyState,
      logSecurityAction, List.find?, hne]
  · norm_num [handleAdjustment, adjState, adjProduct, mkProduct, emptyState,
      logSecurityAction, List.find?, hne]

/-- Claim C2, amended: a manual `adjustment` never changes any product's
committed qty, let alone sets it to the submitted value. The handler
computes a decrement (like `out`, aborting with no state change at all
when the result would be negative), but that stock write — modelled by
`adjustmentUpdate` — is replaced by the stale-state security-log write, so
on the success path the committed state differs from the initial one only
by one `manual_adjustment` SecurityLog entry: products and movements are
unchanged. -/
theorem adjustment_commits_only_log (s : AppState) (pid : String) (q : ℚ) (obs : String)
    (nowId nowDate nowTs : String) (product : Product)
    (hfind : s.products.find? (fun p => p.id == pid) = some product) :
    (product.qty < q →
        handleAdjustment s pid MovementType.adjustment q obs nowId nowDate nowTs = s)
    ∧ (q ≤ product.qty →
        (handleAdjustment s pid MovementType.adjustment q obs nowId nowDate nowTs).products
          = s.products
        ∧ (handleAdjustment s pid MovementType.adjustment q obs nowId nowDate
            nowTs).movements = s.movements
        ∧ (∃ e : SecurityLog,
            (handleAdjustment s pid MovementType.adjustment q obs nowId nowDate
              nowTs).securityLogs = s.securityLogs ++ [e]
            ∧ e.action = SecurityAction.manual_adjustment)
        ∧ (adjustmentUpdate s pid MovementType.adjustment q obs nowId nowDate).products
          = s.products.map
              (fun p => if p.id == pid then { p with qty := product.qty - q } else p)) := by
  have h := handleAdjustment_non_in_spec s pid MovementType.adjustment q obs nowId nowDate
    nowTs product (by decide) hfind
  refine ⟨h.1, fun hle => ?_⟩
  rw [h.2 hle]
  exact ⟨rfl, rfl, ⟨_, rfl, rfl⟩,
    adjustmentUpdate_non_in s pid MovementType.adjustment q obs nowId nowDate product
      (by decide) hfind⟩

/-- Claim C2, witness: the amended statement on the concrete 10-on-hand
product with an `adjustment` of 3 — products and movements unchanged, one
log entry, and the discarded write would have held qty 10 - 3. -/
theorem adjustment_commits_only_log_witness :
    (handleAdjustment adjState "p1" MovementType.adjustment 3 "quebra" "n" "d" "t").products
      = adjState.products
    ∧ (handleAdjustment adjState "p1" MovementType.adjustment 3 "quebra" "n" "d"
        "t").movements = adjState.movements
    ∧ (adjustmentUpdate adjState "p1" MovementType.adjustment 3 "quebra" "n" "d").products
      = adjState.products.map
          (fun p => if p.id == "p1" then { p with qty := adjProduct.qty - 3 } else p) := by
  have h := adjustment_commits_only_log adjState "p1" 3 "quebra" "n" "d" "t" adjProduct
    (by simp [adjState, emptyState, adjProduct, mkProduct, List.find?])
  have hs := h.2 (by norm_num [adjProduct, mkProduct])
  exact ⟨hs.1, hs.2.1, hs.2.2.2⟩

/-- Claim C8: the refusal half holds — an `out` request beyond the on-hand
qty aborts with the whole state unchanged — but on the success path the
decrement and the `out` movement the handler builds (`adjustmentUpdate`)
never commit: the stale-state security-log write replaces them, so the
committed state keeps products and movements unchanged and gains only one
`manual_adjustment` SecurityLog entry. -/
theorem out_update_lost (s : AppState) (pid : String) (q : ℚ) (obs : String)
    (nowId nowDate nowTs : String) (product : Product)
    (hfind : s.products.find? (fun p => p.id == pid) = some product) :
    (product.qty < q →
        handleAdjustment s pid MovementType.stockOut q obs nowId nowDate nowTs = s)
    ∧ (q ≤ product.qty →
        (handleAdjustment s pid MovementType.stockOut q obs nowId nowDate nowTs).products
          = s.products
        ∧ (handleAdjustment s pid MovementType.stockOut q obs nowId nowDate
            nowTs).movements = s.movements
        ∧ (∃ e : SecurityLog,
            (handleAdjustment s pid MovementType.stockOut q obs nowId nowDate
              nowTs).securityLogs = s.securityLogs ++ [e]
            ∧ e.action = SecurityAction.manual_adjustment)
        ∧ (adjustmentUpdate s pid MovementType.stockOut q obs nowId nowDate).products
          = s.products.map
              (fun p => if p.id == pid then { p with qty := product.qty - q } else p)) := by
  have h := handleAdjustment_non_in_spec s pid MovementType.stockOut q obs nowId nowDate
    nowTs product (by decide) hfind
  refine ⟨h.1, fun hle => ?_⟩
  rw [h.2 hle]
  exact ⟨rfl, rfl, ⟨_, rfl, rfl⟩,
    adjustmentUpdate_non_in s pid MovementType.stockOut q obs nowId nowDate product
      (by decide) hfind⟩

/-- Claim C8, witness: requesting 11 of the 10 on hand is a full no-op;
requesting 4 commits nothing but a log — the committed qty list is
untouched even though the discarded write held 10 - 4. -/
theorem out_update_lost_witness :
    (handleAdjustment adjState "p1" MovementType.stockOut 11 "perda" "n" "d" "t" = adjState)
    ∧ (handleAdjustment adjState "p1" MovementType.stockOut 4 "perda" "n" "d" "t").products
        = adjState.products
    ∧ (handleAdjustment adjState "p1" MovementType.stockOut 4 "perda" "n" "d" "t").movements
        = adjState.movements
    ∧ (adjustmentUpdate adjState "p1" MovementType.stockOut 4 "perda" "n" "d").products
        = adjState.products.map
            (fun p => if p.id == "p1" then { p with qty := adjProduct.qty - 4 } else p) := by
  have hf : adjState.products.find? (fun p => p.id == "p1") = some adjProduct := by
    simp [adjState, emptyState, adjProduct, mkProduct, List.find?]
  have h1 := out_update_lost adjState "p1" 11 "perda" "n" "d" "t" adjProduct hf
  have h2 := out_update_lost adjState "p1" 4 "perda" "n" "d" "t" adjProduct hf
  have h2s := h2.2 (by norm_num [adjProduct, mkProduct])
  exact ⟨h1.1 (by norm_num [adjProduct, mkProduct]), h2s.1, h2s.2.1, h2s.2.2.2⟩

/-- Claim C7: every part of the claim holds of the committed state, for a
degenerate reason — no user deletion ever commits. Deleting the last
remaining user is rejected outright (state unchanged), and on the other
path the user-filter write is replaced by the stale-state security-log
write, so the committed user list is always unchanged: at least one user
exists after every operation and the currently active user can never
delete itself. -/
theorem delete_user_invariant (s : AppState) (id nowId nowTs : String) :
    (handleDeleteUser s id nowId nowTs).users = s.users
    ∧ (s.users.length ≤ 1 → handleDeleteUser s id nowId nowTs = s)
    ∧ (s.users ≠ [] → (handleDeleteUser s id nowId nowTs).users ≠ [])
    ∧ ∀ u : User, s.currentUser = some u → u ∈ s.users →
        u ∈ (handleDeleteUser s id nowId nowTs).users := by
  have husers : (handleDeleteUser s id nowId nowTs).users = s.users := by
    unfold handleDeleteUser
    by_cases h : s.users.length ≤ 1
    · rw [if_pos h]
    · rw [if_neg h]
      rfl
  refine ⟨husers, ?_, ?_, ?_⟩
  · intro h
    unfold handleDeleteUser
    rw [if_pos h]
  · intro h
    rw [husers]
    exact h
  · intro u _ hu
    rw [husers]
    exact hu

/-- Claim C7, witness: on the concrete two-user state with the admin
active, requesting deletion of the active user's own id leaves the user
list unchanged, non-empty, and still containing the active user. -/
theorem delete_user_invariant_witness :
    (handleDeleteUser usersState "1" "n" "t").users = usersState.users
    ∧ (handleDeleteUser usersState "1" "n" "t").users ≠ []
    ∧ u1 ∈ (handleDeleteUser usersState "1" "n" "t").users := by
  have h := delete_user_invariant usersState "1" "n" "t"
  exact ⟨h.1, h.2.2.1 (by decide), h.2.2.2 u1 rfl (by decide)⟩

/-- Claim C9: the refusal half holds — deleting a supplier still referenced
by some product leaves the entire state unchanged — but an unreferenced
supplier is never actually removed either: the filter write is replaced by
the stale-state security-log write, so the committed supplier list is
unchanged and only one `user_management` SecurityLog entry is appended. -/
theorem supplier_delete_update_lost (s : AppState) (pid nowId nowTs : String) :
    ((∃ p ∈ s.products, p.supplierId = pid) →
        confirmDeleteSupplier s (some pid) nowId nowTs = s)
    ∧ ((∀ p ∈ s.products, p.supplierId ≠ pid) →
        (confirmDeleteSupplier s (some pid) nowId nowTs).suppliers = s.suppliers
        ∧ ∃ e : SecurityLog,
            (confirmDeleteSupplier s (some pid) nowId nowTs).securityLogs
              = s.securityLogs ++ [e]
            ∧ e.action = SecurityAction.user_management) := by
  constructor
  · rintro ⟨p, hp, he⟩
    have hc : s.products.any (fun p => p.supplierId == pid) = true :=
      List.any_eq_true.mpr ⟨p, hp, by simp [he]⟩
    unfold confirmDeleteSupplier
    dsimp only
    rw [if_pos hc]
  · intro h
    have hc : s.products.any (fun p => p.supplierId == pid) = false := by
      rw [List.any_eq_false]
      intro p hp
      simp [h p hp]
    unfold confirmDeleteSupplier
    dsimp only
    rw [if_neg (by simp [hc])]
    exact ⟨rfl, _, rfl, rfl⟩

/-- Claim C9, witness: deleting the referenced supplier "s1" is a full
no-op; deleting it from the state with no products still leaves it in the
committed directory, with one log entry appended. -/
theorem supplier_delete_update_lost_witness :
    confirmDeleteSupplier supStateUsed (some "s1") "n" "t" = supStateUsed
    ∧ (confirmDeleteSupplier supStateFree (some "s1") "n" "t").suppliers
        = supStateFree.suppliers
    ∧ sup1 ∈ (confirmDeleteSupplier supStateFree (some "s1") "n" "t").suppliers
    ∧ (confirmDeleteSupplier supStateFree (some "s1") "n" "t").securityLogs.length = 1 := by
  have h1 := (supplier_delete_update_lost supStateUsed "s1" "n" "t").1
    ⟨mkProduct "p1" 5 2 4, by simp [supStateUsed, emptyState], rfl⟩
  have h2 := (supplier_delete_update_lost supStateFree "s1" "n" "t").2
    (by simp [supStateFree, emptyState])
  obtain ⟨e, hel, _⟩ := h2.2
  refine ⟨h1, h2.1, ?_, ?_⟩
  · rw [h2.1]
    simp [supStateFree, emptyState]
  · rw [hel]
    simp [supStateFree, emptyState]

/-- Claim C5, counterexample: even with an admin as the active user, the
product-delete flow opens the PIN prompt (initiateDelete sets
`pinModalOpen` unconditionally), a wrong PIN executes nothing — so an
admin does not bypass the prompt as the claim states — and even the
correct PIN does not execute the deletion: the committed product list is
unchanged, because the filter write is replaced by the security-log
write. -/
theorem admin_still_prompted_counterexample :
    adminState.currentUser = some u1
    ∧ u1.role = UserRole.admin
    ∧ (initiateDelete { pinModalOpen := false, pendingDeleteId := none } "p1").pinModalOpen
        = true
    ∧ pinSubmitDeleteProduct adminState (some "p1") "0000" "n" "t" = adminState
    ∧ (pinSubmitDeleteProduct adminState (some "p1") "1234" "n" "t").products
        = adminState.products := by
  refine ⟨rfl, rfl, rfl, ?_, ?_⟩
  · unfold pinSubmitDeleteProduct pinGate
    rw [if_neg (by decide)]
  · unfold pinSubmitDeleteProduct pinGate
    rw [if_pos (by decide)]
    unfold confirmDeleteProduct
    dsimp only
    rfl

/-- Claim C5, amended: every Security-Gated action asks for the PIN
regardless of the active user's role (no admin bypass exists). A wrong PIN
leaves the whole state unchanged, hence no SecurityLog entry. A correct
PIN commits exactly one SecurityLog entry whose action kind is
`delete_product` — but the gated effect itself is lost: the committed
product list is unchanged, because the deletion write is replaced by the
stale-state security-log write. -/
theorem pin_gate_commits_only_log (s : AppState) (pid pin nowId nowTs : String) :
    (pin ≠ s.adminPin → pinSubmitDeleteProduct s (some pid) pin nowId nowTs = s)
    ∧ (pin = s.adminPin →
        (pinSubmitDeleteProduct s (some pid) pin nowId nowTs).products = s.products
        ∧ ∃ e : SecurityLog,
            (pinSubmitDeleteProduct s (some pid) pin nowId nowTs).securityLogs
              = s.securityLogs ++ [e]
            ∧ e.action = SecurityAction.delete_product) := by
  constructor
  · intro hne
    unfold pinSubmitDeleteProduct pinGate
    rw [if_neg (by simp [hne])]
  · intro he
    unfold pinSubmitDeleteProduct pinGate
    rw [if_pos (by simp [he])]
    unfold confirmDeleteProduct
    dsimp only
    exact ⟨rfl, _, rfl, rfl⟩

/-- Claim C5, witness: on the concrete admin state, PIN "9999" changes
nothing, while the correct PIN "1234" appends one `delete_product` log
entry and leaves the product list untouched. -/
theorem pin_gate_commits_only_log_witness :
    pinSubmitDeleteProduct adminState (some "p1") "9999" "n" "t" = adminState
    ∧ (pinSubmitDeleteProduct adminState (some "p1") "1234" "n" "t").products
        = adminState.products
    ∧ (pinSubmitDeleteProduct adminState (some "p1") "1234" "n" "t").securityLogs.length
        = 1 := by
  have h1 := (pin_gate_commits_only_log adminState "p1" "9999" "n" "t").1 (by decide)
  have h2 := (pin_gate_commits_only_log adminState "p1" "1234" "n" "t").2 rfl
  obtain ⟨e, hel, _⟩ := h2.2
  refine ⟨h1, h2.1, ?_⟩
  rw [hel]
  simp [adminState, emptyState]

/-- Claim C4: finalizing a sale produces, in one state update, exactly one
new Sale whose totalValue is the sum of qty times unitPrice over the cart
lines, one `sale` movement per cart line carrying that line's quantity,
each sold product's qty decremented by the sold quantity and floored at 0,
and a cleared cart. The hypotheses are the cart invariants established by
POS.addToCart: line totals equal qty times unitPrice and no line exceeds
the on-hand quantity. -/
theorem finalizeSale_atomic_effects (s : AppState) (cart : List SaleItem)
    (method : PaymentMethod) (nowId nowDate : String)
    (_hne : cart ≠ [])
    (htot : ∀ it ∈ cart, it.total = it.qty * it.unitPrice)
    (hqty : ∀ p ∈ s.products, ∀ it ∈ cart, it.productId = p.id → it.qty ≤ p.qty) :
    (finalizeSale s cart method nowId nowDate).1.sales
        = s.sales ++
          [{ id := nowId
             items := cart
             totalValue := (cart.map (fun it => it.qty * it.unitPrice)).sum
             paymentMethod := method
             date := nowDate
             userId := (s.currentUser.map User.id).getD "sys"
             userName := (s.currentUser.map User.name).getD "Sistema" }]
    ∧ (finalizeSale s cart method nowId nowDate).1.movements
        = s.movements ++ cart.map (fun it =>
            ({ id := nowId ++ it.productId
               productId := it.productId
               type := MovementType.sale
               qty := it.qty
               date := nowDate
               userId := (s.currentUser.map User.id).getD "sys"
               userName := (s.currentUser.map User.name).getD "Sistema"
               observation := none } : StockMovement))
    ∧ (finalizeSale s cart method nowId nowDate).1.products
        = s.products.map (fun p =>
            match cart.find? (fun i => i.productId == p.id) with
            | some it => { p with qty := max 0 (p.qty - it.qty) }
            | none => p)
    ∧ (finalizeSale s cart method nowId nowDate).2 = [] := by
  refine ⟨?_, rfl, ?_, rfl⟩
  · show s.sales ++
        [{ id := nowId
           items := cart
           totalValue := cartTotal cart
           paymentMethod := method
           date := nowDate
           userId := (s.currentUser.map User.id).getD "sys"
           userName := (s.currentUser.map User.name).getD "Sistema" }] = _
    rw [cartTotal_eq_sum cart htot]
  · have key : (finalizeSale s cart method nowId nowDate).1.products
        = s.products.map (fun p =>
            match cart.find? (fun i => i.productId == p.id) with
            | some soldItem => { p with qty := p.qty - soldItem.qty }
            | none => p) := rfl
    rw [key]
    apply List.map_congr_left
    intro p hp
    cases hfind : cart.find? (fun i => i.productId == p.id) with
    | none => rfl
    | some it =>
        have hmem := List.mem_of_find?_eq_some hfind
        have hid : it.productId = p.id := by simpa using List.find?_some hfind
        have hle : it.qty ≤ p.qty := hqty p hp it hmem hid
        dsimp only
        rw [max_eq_right (sub_nonneg.mpr hle)]

/-- Claim C4, witness: selling 3 units at price 10 from a stock of 5 yields
one Sale of totalValue 30, product qty 2, one `sale` movement of qty 3, and
an empty cart. -/
theorem finalizeSale_atomic_effects_witness :
    ((finalizeSale posState posCart PaymentMethod.cash "90" "d").1.sales.map Sale.totalValue
        = [30])
    ∧ ((finalizeSale posState posCart PaymentMethod.cash "90" "d").1.products.map Product.qty
        = [2])
    ∧ ((finalizeSale posState posCart PaymentMethod.cash "90" "d").1.movements.map
          StockMovement.qty = [3])
    ∧ (finalizeSale posState posCart PaymentMethod.cash "90" "d").2 = [] := by
  have h := finalizeSale_atomic_effects posState posCart PaymentMethod.cash "90" "d"
    (by simp [posCart])
    (by
      intro it hit
      simp only [posCart, List.mem_singleton] at hit
      rw [hit]
      norm_num)
    (by
      intro p hp it hit hid
      simp only [posState, emptyState, posProduct, List.mem_singleton] at hp
      simp only [posCart, List.mem_singleton] at hit
      rw [hp, hit]
      norm_num [mkProduct])
  refine ⟨?_, ?_, ?_, h.2.2.2⟩
  · rw [h.1]
    norm_num [posState, emptyState, posCart]
  · rw [h.2.2.1]
    norm_num [posState, emptyState, posProduct, mkProduct, posCart, List.find?]
  · rw [h.2.1]
    norm_num [posState, emptyState, posCart]

/-- Claim C3, amended: moving an order that is not yet `received` to
`received` builds the full receive update — per line, the weighted-average
cost rounded to two decimals, the qty increment and one `in` movement
referencing the order id, with the status flipped (`receiveUpdate`) — but
that write is replaced by the stale-state security-log write, so the
committed state appends exactly one `manual_adjustment` SecurityLog entry
and leaves orders, products and movements unchanged: the order does not
even become `received`. An order already `received` is a complete no-op
(stock is never re-applied — trivially, since it is never applied). -/
theorem receive_commits_only_log (s : AppState) (orderId : String)
    (order : PurchaseOrder) (nowId nowDate nowTs : String)
    (hfind : s.orders.find? (fun o => o.id == orderId) = some order)
    (hnd : (s.orders.map PurchaseOrder.id).Nodup) :
    (order.status = OrderStatus.received →
        handleUpdateStatus s orderId OrderStatus.received nowId nowDate nowTs = s)
    ∧ (order.status ≠ OrderStatus.received →
        handleUpdateStatus s orderId OrderStatus.received nowId nowDate nowTs
          = logSecurityAction s SecurityAction.manual_adjustment
              ("Recebimento de Pedido #" ++ orderId) none nowId nowTs
        ∧ (handleUpdateStatus s orderId OrderStatus.received nowId nowDate
            nowTs).products = s.products
        ∧ (handleUpdateStatus s orderId OrderStatus.received nowId nowDate
            nowTs).movements = s.movements
        ∧ (handleUpdateStatus s orderId OrderStatus.received nowId nowDate
            nowTs).orders = s.orders
        ∧ ((∀ item ∈ order.items,
              (s.products.find? (fun p => p.id == item.productId)).isSome) →
            (receiveUpdate s orderId order nowId nowDate).movements.length
              = s.movements.length + order.items.length)
        ∧ { order with status := OrderStatus.received }
            ∈ (receiveUpdate s orderId order nowId nowDate).orders) := by
  have horder_mem : order ∈ s.orders := List.mem_of_find?_eq_some hfind
  have hoid : order.id = orderId := by simpa using List.find?_some hfind
  constructor
  · intro hst
    unfold handleUpdateStatus
    rw [hfind]
    dsimp only
    rw [if_neg (by simp [hst])]
    have hmap : s.orders.map (fun o =>
        if o.id == orderId then { o with status := OrderStatus.received } else o)
        = s.orders := by
      apply map_id_of_eq
      intro o ho
      by_cases hb : (o.id == orderId) = true
      · have heq : o = order := by
          apply List.inj_on_of_nodup_map hnd ho horder_mem
          rw [hoid]
          simpa using hb
        rw [if_pos hb, heq, order_set_received_self order hst]
      · rw [if_neg hb]
    rw [hmap]
  · intro hst
    have hb : (order.status == OrderStatus.received) = false := by
      simpa using hst
    have hcond : (OrderStatus.received == OrderStatus.received
        && !(order.status == OrderStatus.received)) = true := by
      simp [hb]
    have hmain : handleUpdateStatus s orderId OrderStatus.received nowId nowDate nowTs
        = logSecurityAction s SecurityAction.manual_adjustment
            ("Recebimento de Pedido #" ++ orderId) none nowId nowTs := by
      unfold handleUpdateStatus
      rw [hfind]
      dsimp only
      rw [if_pos hcond]
    refine ⟨hmain, ?_, ?_, ?_, ?_, ?_⟩
    · rw [hmain]
      rfl
    · rw [hmain]
      rfl
    · rw [hmain]
      rfl
    · intro hall
      exact receiveItems_length order.id ((s.currentUser.map User.id).getD "sys")
        ((s.currentUser.map User.name).getD "Sistema") nowId nowDate order.items
        s.products s.movements hall
    · exact List.mem_map.mpr ⟨order, horder_mem, by rw [if_pos (by simp [hoid])]⟩

/-- Claim C3, counterexample: receiving an open order of 2 units at cost 2
against a product with qty 1 and costPrice 1 commits costPrice 1 (not the
weighted average 5/3), appends no `in` movement, and does not even flip the
order's status — the stock write is replaced by the security-log write. -/
theorem receive_update_lost_counterexample :
    (handleUpdateStatus roundState "o1" OrderStatus.received "n" "d" "t").products
        = roundState.products
    ∧ (((handleUpdateStatus roundState "o1" OrderStatus.received "n" "d" "t").products.find?
        (fun p => p.id == "p")).map Product.costPrice = some 1)
    ∧ ((1 : ℚ) ≠ (1 * 1 + 2 * 2) / (1 + 2))
    ∧ (handleUpdateStatus roundState "o1" OrderStatus.received "n" "d" "t").movements
        = roundState.movements
    ∧ (((handleUpdateStatus roundState "o1" OrderStatus.received "n" "d" "t").orders.find?
        (fun o => o.id == "o1")).map PurchaseOrder.status = some OrderStatus.opened) := by
  have hb1 : (OrderStatus.received == OrderStatus.received) = true := by decide
  have hb2 : (OrderStatus.opened == OrderStatus.received) = false := by decide
  refine ⟨?_, ?_, by norm_num, ?_, ?_⟩ <;>
    norm_num [handleUpdateStatus, roundState, roundOrder1, roundOrder2, roundProduct,
      mkProduct, emptyState, logSecurityAction, List.find?, hb1, hb2]

/-- Claim C3, witness: the amended statement on the concrete 20-at-cost-5
order against a qty-0 product — committed state keeps products, movements
and the `sent` status, gains one log entry; the discarded `receiveUpdate`
held the one movement and the flipped status; and the already-received
state is a full no-op. -/
theorem receive_commits_only_log_witness :
    (handleUpdateStatus rcvState "o1" OrderStatus.received "n" "d" "t").products
        = rcvState.products
    ∧ (handleUpdateStatus rcvState "o1" OrderStatus.received "n" "d" "t").movements
        = rcvState.movements
    ∧ (handleUpdateStatus rcvState "o1" OrderStatus.received "n" "d" "t").orders
        = rcvState.orders
    ∧ ((receiveUpdate rcvState "o1" rcvOrder "n" "d").movements.length = 0 + 1)
    ∧ ({ rcvOrder with status := OrderStatus.received }
        ∈ (receiveUpdate rcvState "o1" rcvOrder "n" "d").orders)
    ∧ handleUpdateStatus rcvStateDone "o1" OrderStatus.received "n" "d" "t"
        = rcvStateDone := by
  have hfind : rcvState.orders.find? (fun o => o.id == "o1") = some rcvOrder := by
    simp [rcvState, emptyState, rcvOrder, List.find?]
  have h := receive_commits_only_log rcvState "o1" rcvOrder "n" "d" "t" hfind
    (by simp [rcvState, emptyState, rcvOrder])
  have h2 := h.2 (by decide)
  have hfindD : rcvStateDone.orders.find? (fun o => o.id == "o1") = some rcvOrderDone := by
    simp [rcvStateDone, emptyState, rcvOrderDone, rcvOrder, List.find?]
  have hd := receive_commits_only_log rcvStateDone "o1" rcvOrderDone "n" "d" "t" hfindD
    (by simp [rcvStateDone, emptyState, rcvOrderDone, rcvOrder])
  have hlen := h2.2.2.2.2.1 (by
    intro item hit
    simp only [rcvOrder, List.mem_singleton] at hit
    rw [hit]
    simp [rcvState, emptyState, rcvProduct, mkProduct, List.find?])
  refine ⟨h2.2.1, h2.2.2.1, h2.2.2.2.1, ?_, h2.2.2.2.2.2, hd.1 rfl⟩
  simpa [rcvState, emptyState, rcvOrder] using hlen

/-- Claim C10: the receive loop COMPUTES the weighted-average cost rounded
to two decimal places (`Number(x.toFixed(2))`) — the discarded
`receiveUpdate` for the 1-at-cost-1 product receiving 2 at cost 2 holds
1.67, which differs from the exact 5/3 — but that value never persists: the
stock write is replaced by the stale-state security-log write, so after
receiving both sample orders the committed costPrice is still 1 and no
compounding on rounded values ever occurs. -/
theorem receive_cost_rounding_lost (oid uid un nowId nowDate : String)
    (prods : List Product) (movs : List StockMovement) (item : OrderItem)
    (product : Product)
    (hfind : prods.find? (fun p => p.id == item.productId) = some product) :
    ((receiveStep oid uid un nowId nowDate (prods, movs) item).1.find?
        (fun p => p.id == item.productId)).map Product.costPrice
      = some (round2 ((product.qty * product.costPrice + item.qty * item.cost)
          / (product.qty + item.qty)))
    ∧ (round2 ((1 * 1 + 2 * 2) / (1 + 2)) ≠ ((1 * 1 + 2 * 2) / (1 + 2) : ℚ))
    ∧ (((receiveUpdate roundState "o1" roundOrder1 "n1" "d1").products.find?
        (fun p => p.id == "p")).map Product.costPrice = some (167 / 100))
    ∧ (((handleUpdateStatus (handleUpdateStatus roundState "o1" OrderStatus.received "n1"
          "d1" "t1") "o2" OrderStatus.received "n2" "d2" "t2").products.find?
            (fun p => p.id == "p")).map Product.costPrice = some 1)
    ∧ ((1 : ℚ) ≠ 167 / 100) := by
  have hb1 : (OrderStatus.received == OrderStatus.received) = true := by decide
  have hb2 : (OrderStatus.opened == OrderStatus.received) = false := by decide
  refine ⟨?_, ?_, ?_, ?_, ?_⟩
  · rw [receiveStep_spec _ _ _ _ _ _ _ _ _ hfind]
    dsimp only
    have hf := updateFirst_find? item.productId
      (fun p => { p with
        qty := product.qty + item.qty
        costPrice := round2 ((product.qty * product.costPrice + item.qty * item.cost)
          / (product.qty + item.qty)) })
      (fun p => rfl) prods product hfind
    rw [hf]
    rfl
  · norm_num [round2]
  · norm_num [receiveUpdate, receiveStep, updateFirst, round2, roundState, roundOrder1,
      roundProduct, mkProduct, emptyState, List.find?, List.foldl]
  · norm_num [handleUpdateStatus, roundState, roundOrder1, roundOrder2, roundProduct,
      mkProduct, emptyState, logSecurityAction, List.find?, hb1, hb2]
  · norm_num

/-- Claim C10, witness: the universal rounding equation evaluated on the
concrete 1-at-cost-1 product receiving 2 units at cost 2 — the computed
(and then discarded) value is `round2 (5/3) = 1.67`. -/
theorem receive_cost_rounding_lost_witness :
    (((receiveStep "o1" "sys" "Sistema" "n" "d" ([roundProduct], [])
        { productId := "p", qty := 2, cost := 2 }).1.find? (fun p => p.id == "p")).map
          Product.costPrice)
      = some (round2 ((roundProduct.qty * roundProduct.costPrice + 2 * 2)
          / (roundProduct.qty + 2)))
    ∧ round2 ((roundProduct.qty * roundProduct.costPrice + 2 * 2)
        / (roundProduct.qty + 2)) = 167 / 100 := by
  have h := receive_cost_rounding_lost "o1" "sys" "Sistema" "n" "d" [roundProduct] []
    { productId := "p", qty := 2, cost := 2 } roundProduct
    (by simp [roundProduct, mkProduct, List.find?])
  exact ⟨h.1, by norm_num [roundProduct, mkProduct, round2]⟩

end Mercado
